import Mathlib

/-!
Verification of the async runtime core in `src/async/src/app.rs`
(rust-tui-template). The Rust code spawns a render task (`spawn_tui_task`),
an input/event task (`spawn_event_task`), and runs a dispatch loop
(`App::run`) that drains an unbounded command channel, applies each command
to shared state via `dispatch`, and handles suspend/quit lifecycle
transitions.

The embedding is a shallow one: each task's loop becomes a fuel- or
structure-recursive Lean function over explicit queues, producing a trace
of observable events (sends, dispatches, awaits, draws, restores) plus a
final status.  Channels are FIFO lists; the blocking `recv().await` is the
head of the queue; `try_recv` is the rest of the queue.  The state type of
the shared `Home` structure and its `dispatch`/`handle_events` functions
(which live in a file outside the extracted sources) are kept abstract:
every theorem is proved for an arbitrary dispatch function, so it holds
for the real one.
-/

namespace TuiApp

/-- Commands, mirroring `enum Action` in app.rs lines 17-36. -/
inductive Action : Type
  | Quit
  | Resume
  | Suspend
  | Tick
  | RenderTick
  | Resize (w h : Nat)
  | ToggleShowLogger
  | ScheduleIncrementCounter
  | ScheduleDecrementCounter
  | AddToCounter (n : Nat)
  | SubtractFromCounter (n : Nat)
  | EnterNormal
  | EnterInsert
  | EnterProcessing
  | ExitProcessing
  | Update
  | Noop
deriving DecidableEq

/-- Render-task signals, mirroring `enum Message` in app.rs lines 38-42. -/
inductive Message : Type
  | Render
  | Stop
deriving DecidableEq

/-- Observable events of the dispatch loop (`App::run`, app.rs 103-149).
`sendRender b` records `tui_tx.send(Message::Render)` with `b` telling
whether the receiver was still alive (the code swallows the error either
way, via `unwrap_or(())`).  `dispatched a` records the call
`home.lock().await.dispatch(action)`.  The lifecycle events mirror the
suspend/quit branches at lines 128-146. -/
inductive Ev : Type
  | sendRender (ok : Bool)
  | traceDbg (a : Action)
  | dispatched (a : Action)
  | checkSuspend
  | checkQuit
  | sendStopRender
  | sendStopInput
  | awaitRenderTask
  | awaitInputTask
  | osSuspend
  | spawnRenderTask
  | spawnInputTask
  | sendResume
  | blockWait
  | exitLoop
deriving DecidableEq

/-- Environment of the dispatch loop.  `dispatch`, `suspendFlag` and
`quitFlag` abstract the shared `Home` state (its `dispatch` method and its
`should_suspend` / `should_quit` fields); `tuiSendOk` models whether the
render task still holds its channel receiver; `cmdSendOk` models whether
`action_tx.send` can succeed (false only if the command channel lost all
receivers). -/
structure Cfg (σ : Type) where
  dispatch : σ → Action → σ × Option Action
  suspendFlag : σ → Bool
  quitFlag : σ → Bool
  tuiSendOk : Bool
  cmdSendOk : Bool

/-- Events emitted while handling one command, before and at the
`dispatch` call (app.rs 117-122): `RenderTick` forwards a render signal,
anything other than `Tick` or `RenderTick` is traced via `trace_dbg!`,
then `dispatch` runs. -/
def actionEvs {σ : Type} (cfg : Cfg σ) (a : Action) : List Ev :=
  (if a = Action.RenderTick then [Ev.sendRender cfg.tuiSendOk]
   else if a = Action.Tick then []
   else [Ev.traceDbg a]) ++ [Ev.dispatched a]

/-- One iteration of the inner `while maybe_action.is_some()` body
(app.rs 116-125).  Returns the new state, the follow-up commands to
re-enqueue, and the emitted events, or `none` when
`action_tx.send(a)?` fails (the only failing operation: the `?` makes it
fatal, while the render-signal send is swallowed with `unwrap_or(())`). -/
def processAction {σ : Type} (cfg : Cfg σ) (s : σ) (a : Action) :
    Option (σ × List Action × List Ev) :=
  match cfg.dispatch s a with
  | (s', none) => some (s', [], actionEvs cfg a)
  | (s', some f) =>
      if cfg.cmdSendOk then some (s', [f], actionEvs cfg a) else none

/-- Status of a drain pass: `done` when `try_recv` finally returned
nothing, `sendErr` when a follow-up re-enqueue failed (the `?` at
app.rs 123 aborts `run`), `fuelOut` when the analysis fuel ran out. -/
inductive DStatus : Type
  | done
  | sendErr
  | fuelOut
deriving DecidableEq

/-- Result of draining the command queue. -/
structure DrainRes (σ : Type) where
  state : σ
  evs : List Ev
  status : DStatus

/-- The inner while loop of `App::run` (app.rs 115-126): pop the next
queued command, handle it, append any follow-up command to the back of
the same FIFO queue (an `unbounded_channel` is FIFO), and repeat until
the queue is empty.  Fueled because an adversarial `dispatch` could
re-enqueue forever. -/
def drain {σ : Type} (cfg : Cfg σ) : Nat → σ → List Action → DrainRes σ
  | _, s, [] => ⟨s, [], DStatus.done⟩
  | 0, s, _ :: _ => ⟨s, [], DStatus.fuelOut⟩
  | fuel + 1, s, a :: rest =>
      match processAction cfg s a with
      | none => ⟨s, [], DStatus.sendErr⟩
      | some (s', fo, evs) =>
          let r := drain cfg fuel s' (rest ++ fo)
          match r.status with
          | DStatus.done => ⟨r.state, evs ++ r.evs, DStatus.done⟩
          | st => ⟨r.state, [], st⟩

/-- Outcome of one outer-loop iteration of `App::run`. -/
inductive Outcome : Type
  | continued
  | exited
  | blockedWait
  | errored
  | unknown
deriving DecidableEq

/-- Trace of the suspend branch (app.rs 128-139): stop both tasks, await
render task then input task, OS suspend, respawn both tasks, inject
`Action::Resume`. -/
def suspendEvs : List Ev :=
  [Ev.checkSuspend, Ev.sendStopRender, Ev.sendStopInput,
   Ev.awaitRenderTask, Ev.awaitInputTask, Ev.osSuspend,
   Ev.spawnRenderTask, Ev.spawnInputTask, Ev.sendResume]

/-- Trace of the quit branch (app.rs 140-145): stop both tasks, await
render task then input task, break out of the loop. -/
def quitEvs : List Ev :=
  [Ev.checkSuspend, Ev.checkQuit, Ev.sendStopRender, Ev.sendStopInput,
   Ev.awaitRenderTask, Ev.awaitInputTask, Ev.exitLoop]

/-- Trace when neither flag is set: after checking both flags the loop
returns to the blocking `action_rx.recv().await`. -/
def idleEvs : List Ev :=
  [Ev.checkSuspend, Ev.checkQuit, Ev.blockWait]

/-- The flag inspection after draining (app.rs 128-146):
`should_suspend` is read first; `should_quit` is only read when
`should_suspend` is false. -/
def lifecycle {σ : Type} (cfg : Cfg σ) (s : σ) : List Ev × Outcome :=
  if cfg.suspendFlag s then (suspendEvs, Outcome.continued)
  else if cfg.quitFlag s then (quitEvs, Outcome.exited)
  else (idleEvs, Outcome.blockedWait)

/-- Result of one outer-loop iteration. -/
structure RunRes (σ : Type) where
  state : σ
  evs : List Ev
  outcome : Outcome

/-- One full iteration of the outer loop of `App::run` (app.rs 113-147):
drain every immediately available command, then inspect the lifecycle
flags. -/
def runIteration {σ : Type} (cfg : Cfg σ) (fuel : Nat) (s : σ)
    (queue : List Action) : RunRes σ :=
  match (drain cfg fuel s queue).status with
  | DStatus.done =>
      ⟨(drain cfg fuel s queue).state,
       (drain cfg fuel s queue).evs ++
         (lifecycle cfg (drain cfg fuel s queue).state).1,
       (lifecycle cfg (drain cfg fuel s queue).state).2⟩
  | DStatus.sendErr =>
      ⟨(drain cfg fuel s queue).state, (drain cfg fuel s queue).evs,
       Outcome.errored⟩
  | DStatus.fuelOut =>
      ⟨(drain cfg fuel s queue).state, (drain cfg fuel s queue).evs,
       Outcome.unknown⟩

/-- The commands that went through `dispatch`, in order, read off a
trace. -/
def dispatchedOf (evs : List Ev) : List Action :=
  evs.filterMap fun e =>
    match e with
    | Ev.dispatched a => some a
    | _ => none

/-- Events that can be emitted while draining (as opposed to the
lifecycle events emitted after the drain). -/
def isDrainEv : Ev → Bool
  | Ev.sendRender _ => true
  | Ev.traceDbg _ => true
  | Ev.dispatched _ => true
  | _ => false

/-- The teardown ordering required on a lifecycle trace: stop the render
task, then stop the input task, then await the render task, then await
the input task, and all of that before the next stage `next` (the OS
suspend for the suspend branch, the loop exit for the quit branch). -/
@[reducible] def teardownOrdered (evs : List Ev) (next : Ev) : Prop :=
  next ∈ evs ∧
  evs.indexOf Ev.sendStopRender < evs.indexOf Ev.sendStopInput ∧
  evs.indexOf Ev.sendStopInput < evs.indexOf Ev.awaitRenderTask ∧
  evs.indexOf Ev.awaitRenderTask < evs.indexOf Ev.awaitInputTask ∧
  evs.indexOf Ev.awaitInputTask < evs.indexOf next

/-- Observable events of the render task (`spawn_tui_task`,
app.rs 55-82): a successful `terminal.draw` call, and the `tui.exit()`
terminal restoration after the loop. -/
inductive TEv : Type
  | drewFrame
  | restoredTerminal
deriving DecidableEq

/-- Final status of the render task's loop within the analysis fuel:
`finished` means it broke out of the loop and ran `tui.exit()`;
`blockedRecv` means it is parked in `tui_rx.recv().await` with the
channel still open; `panicked` means `draw(..).unwrap()` panicked;
`fuelOut` means the fuel ran out before any of these. -/
inductive TStatus : Type
  | finished
  | blockedRecv
  | panicked
  | fuelOut
deriving DecidableEq

/-- Result of running the render task. -/
structure TuiRes where
  evs : List TEv
  status : TStatus
deriving DecidableEq

/-- The render task loop (app.rs 63-78).  `drawOk k` tells whether the
k-th `terminal.draw` call succeeds; `queue` is the FIFO content of the
signal channel; `closed` tells whether every sender has been dropped, in
which case `recv().await` returns `None` once the queue is empty.  The
`None` arm of the Rust `match` is `{}`: it does nothing and the loop
repeats, which is why the closed-empty case recurses instead of
breaking. -/
def tuiRun (drawOk : Nat → Bool) : Nat → Nat → List Message → Bool → TuiRes
  | 0, _, _, _ => ⟨[], TStatus.fuelOut⟩
  | fuel + 1, k, [], closed =>
      if closed then tuiRun drawOk fuel k [] true
      else ⟨[], TStatus.blockedRecv⟩
  | _ + 1, _, Message.Stop :: _, _ => ⟨[TEv.restoredTerminal], TStatus.finished⟩
  | fuel + 1, k, Message.Render :: rest, closed =>
      if drawOk k then
        let r := tuiRun drawOk fuel (k + 1) rest closed
        ⟨TEv.drewFrame :: r.evs, r.status⟩
      else ⟨[], TStatus.panicked⟩

/-- The render task's loop terminates (reaches `tui.exit()`), for some
amount of fuel. -/
def tuiTerminates (drawOk : Nat → Bool) (queue : List Message)
    (closed : Bool) : Prop :=
  ∃ fuel, (tuiRun drawOk fuel 0 queue closed).status = TStatus.finished

/-- Observable events of the input task (`spawn_event_task`,
app.rs 84-101): completing `events.next().await`, sending the handled
command with `tx.send(action)`, and winding down the event source with
`events.stop()` just before breaking. -/
inductive IEv : Type
  | awaitedEvent
  | sentCommand (a : Action)
  | sourceStopped
deriving DecidableEq

/-- Final status of the input task within the modelled event prefix:
`exited` means it broke out of the loop after seeing the stop signal;
`blockedAwait` means it is parked in `events.next().await`; `panicked`
means `tx.send(action).unwrap()` panicked because the receiver was
dropped. -/
inductive IStatus : Type
  | exited
  | blockedAwait
  | panicked
deriving DecidableEq

/-- Whether `stop_event_rx.try_recv()` yields the one-shot stop signal at
iteration `i`: the signal was sent before iteration `k` for
`stopAt = some k`, and is seen at every check from iteration `k` on. -/
def stopVisible (stopAt : Option Nat) (i : Nat) : Bool :=
  match stopAt with
  | none => false
  | some k => k ≤ i

/-- The input task loop (app.rs 90-98), iterating over the events the
source will produce: await the next event, compute the command via the
state's handler, send it (a failed send panics the task via `unwrap`),
and only then poll the stop signal; when it is visible, stop the event
source and break. -/
def eventRun {E : Type} (handle : E → Action) (sendOk : Bool)
    (stopAt : Option Nat) : List E → Nat → List IEv × IStatus
  | [], _ => ([], IStatus.blockedAwait)
  | e :: rest, i =>
      if sendOk then
        if stopVisible stopAt i then
          ([IEv.awaitedEvent, IEv.sentCommand (handle e), IEv.sourceStopped],
           IStatus.exited)
        else
          let r := eventRun handle sendOk stopAt rest (i + 1)
          (IEv.awaitedEvent :: IEv.sentCommand (handle e) :: r.1, r.2)
      else ([IEv.awaitedEvent], IStatus.panicked)

/-- A tiny concrete environment used to instantiate the universally
quantified theorems: the state is a counter, `AddToCounter n` adds to it
and nothing produces a follow-up command; no lifecycle flag is set. -/
def cfg0 : Cfg Nat :=
  ⟨fun s a =>
      match a with
      | Action.AddToCounter n => (s + n, none)
      | _ => (s, none),
   fun _ => false, fun _ => false, true, true⟩

/-- Concrete environment whose dispatch always produces a follow-up
command while the command channel can no longer accept sends. -/
def cfgF : Cfg Nat :=
  ⟨fun s _ => (s, some Action.Update), fun _ => false, fun _ => false,
   true, false⟩

/-- Concrete environment in which both lifecycle flags are set. -/
def cfgS : Cfg Nat :=
  ⟨fun s _ => (s, none), fun _ => true, fun _ => true, true, true⟩

/-- Concrete environment in which only `should_quit` is set. -/
def cfgQ : Cfg Nat :=
  ⟨fun s _ => (s, none), fun _ => false, fun _ => true, true, true⟩

/-- Exactly one command goes through `dispatch` per handled command. -/
lemma dispatchedOf_actionEvs {σ : Type} (cfg : Cfg σ) (a : Action) :
    dispatchedOf (actionEvs cfg a) = [a] := by
  by_cases h1 : a = Action.RenderTick <;> by_cases h2 : a = Action.Tick <;>
    simp [actionEvs, dispatchedOf, h1, h2]

/-- Handling one command only emits drain-phase events. -/
lemma actionEvs_isDrainEv {σ : Type} (cfg : Cfg σ) (a : Action) :
    ∀ e ∈ actionEvs cfg a, isDrainEv e = true := by
  intro e he
  by_cases h1 : a = Action.RenderTick <;> by_cases h2 : a = Action.Tick <;>
    simp [actionEvs, h1, h2] at he <;>
    first
      | (rcases he with h | h <;> simp [h, isDrainEv])
      | simp [he, isDrainEv]

/-- `dispatchedOf` distributes over concatenation. -/
lemma dispatchedOf_append (l1 l2 : List Ev) :
    dispatchedOf (l1 ++ l2) = dispatchedOf l1 ++ dispatchedOf l2 := by
  simp [dispatchedOf]

/-- A successful `processAction` emits exactly the events of
`actionEvs`. -/
lemma processAction_some_evs {σ : Type} (cfg : Cfg σ) (s s1 : σ)
    (a : Action) (fo : List Action) (evs : List Ev)
    (h : processAction cfg s a = some (s1, fo, evs)) :
    evs = actionEvs cfg a := by
  rcases hd : cfg.dispatch s a with ⟨s2, o⟩
  rw [processAction, hd] at h
  cases o with
  | none =>
      simp at h
      exact h.2.2.symm
  | some f =>
      by_cases hc : cfg.cmdSendOk <;> simp [hc] at h
      exact h.2.2.symm

/-- `processAction` can only fail when the command-channel send fails. -/
lemma processAction_none {σ : Type} (cfg : Cfg σ) (s : σ) (a : Action)
    (h : processAction cfg s a = none) : cfg.cmdSendOk = false := by
  rcases hd : cfg.dispatch s a with ⟨s2, o⟩
  rw [processAction, hd] at h
  cases o with
  | none => simp at h
  | some f =>
      by_cases hc : cfg.cmdSendOk <;> simp [hc] at h
      simp [hc]

/-- Core drain invariant: a completed drain has dispatched every command
of the initial queue, in order and before anything else, and its trace
consists only of drain-phase events (no flag check, no blocking wait). -/
lemma drain_done_all {σ : Type} (cfg : Cfg σ) :
    ∀ (fuel : Nat) (s : σ) (queue : List Action),
      (drain cfg fuel s queue).status = DStatus.done →
      (∃ t, dispatchedOf (drain cfg fuel s queue).evs = queue ++ t) ∧
      ∀ e ∈ (drain cfg fuel s queue).evs, isDrainEv e = true := by
  intro fuel
  induction fuel with
  | zero =>
      intro s queue h
      cases queue with
      | nil => exact ⟨⟨[], by simp [drain, dispatchedOf]⟩, by simp [drain]⟩
      | cons a rest => simp [drain] at h
  | succ fuel ih =>
      intro s queue h
      cases queue with
      | nil => exact ⟨⟨[], by simp [drain, dispatchedOf]⟩, by simp [drain]⟩
      | cons a rest =>
          rcases hp : processAction cfg s a with _ | ⟨s1, fo, evs⟩
          · rw [drain, hp] at h
            simp at h
          · have hevs := processAction_some_evs cfg s s1 a fo evs hp
            rcases hst : (drain cfg fuel s1 (rest ++ fo)).status
            · have hIH := ih s1 (rest ++ fo) hst
              rcases hIH with ⟨⟨t, hdisp⟩, hall⟩
              rw [drain, hp]
              simp only [hst]
              constructor
              · refine ⟨fo ++ t, ?_⟩
                rw [dispatchedOf_append, hevs, dispatchedOf_actionEvs, hdisp]
                simp
              · intro e he
                rcases List.mem_append.mp he with h1 | h2
                · exact actionEvs_isDrainEv cfg a e (hevs ▸ h1)
                · exact hall e h2
            · rw [drain, hp] at h
              simp only [hst] at h
              simp at h
            · rw [drain, hp] at h
              simp only [hst] at h
              simp at h

/-- Once the signal channel is closed and drained, the render task's
`recv` keeps returning `None` and the `None => {}` arm keeps looping:
the state never changes, so every amount of fuel is exhausted without
the loop ever exiting. -/
lemma tuiRun_nil_closed (drawOk : Nat → Bool) :
    ∀ (fuel k : Nat), tuiRun drawOk fuel k [] true = ⟨[], TStatus.fuelOut⟩ := by
  intro fuel
  induction fuel with
  | zero => intro k; rfl
  | succ fuel ih => intro k; rw [tuiRun]; simpa using ih k

/-- Restoration discipline of the render task: when the loop finishes
normally the restore is the final event, and when a draw panics the
restore never happened. -/
lemma tuiRun_restore_paths (drawOk : Nat → Bool) :
    ∀ (fuel k : Nat) (queue : List Message) (closed : Bool),
      ((tuiRun drawOk fuel k queue closed).status = TStatus.finished →
        ∃ pre, (tuiRun drawOk fuel k queue closed).evs =
          pre ++ [TEv.restoredTerminal]) ∧
      ((tuiRun drawOk fuel k queue closed).status = TStatus.panicked →
        TEv.restoredTerminal ∉ (tuiRun drawOk fuel k queue closed).evs) := by
  intro fuel
  induction fuel with
  | zero =>
      intro k queue closed
      constructor <;> intro h <;> simp [tuiRun] at h
  | succ fuel ih =>
      intro k queue closed
      cases queue with
      | nil =>
          cases closed with
          | false => constructor <;> intro h <;> simp [tuiRun] at h
          | true =>
              rw [tuiRun]
              simpa using ih k [] true
      | cons m rest =>
          cases m with
          | Stop =>
              constructor <;> intro h
              · exact ⟨[], rfl⟩
              · simp [tuiRun] at h
          | Render =>
              by_cases hd : drawOk k
              · have hI := ih (k + 1) rest closed
                rw [tuiRun]
                simp only [hd, if_pos]
                constructor <;> intro h
                · rcases hI.1 h with ⟨pre, hpre⟩
                  exact ⟨TEv.drewFrame :: pre, by simp [hpre]⟩
                · have := hI.2 h
                  simp [this]
              · rw [tuiRun]
                simp only [hd, if_neg]
                constructor <;> intro h
                · simp at h
                · simp

/-- When the input task exits its loop, the trace ends with a completed
iteration: an awaited event, the command sent from it, and only then the
wind-down of the event source; the wind-down happens nowhere earlier. -/
lemma eventRun_exit_shape {E : Type} (handle : E → Action) (sendOk : Bool)
    (stopAt : Option Nat) :
    ∀ (events : List E) (i : Nat),
      (eventRun handle sendOk stopAt events i).2 = IStatus.exited →
      ∃ pre a, (eventRun handle sendOk stopAt events i).1 =
          pre ++ [IEv.awaitedEvent, IEv.sentCommand a, IEv.sourceStopped] ∧
        IEv.sourceStopped ∉ pre := by
  cases sendOk with
  | false =>
      intro events i h
      cases events with
      | nil => simp [eventRun] at h
      | cons e rest => simp [eventRun] at h
  | true =>
      intro events
      induction events with
      | nil => intro i h; simp [eventRun] at h
      | cons e rest ih =>
          intro i h
          by_cases hv : stopVisible stopAt i
          · rw [eventRun]
            simp only [if_pos, hv, if_true]
            exact ⟨[], handle e, by simp, by simp⟩
          · rw [eventRun] at h ⊢
            simp only [if_true, hv, Bool.false_eq_true, if_neg,
              not_false_eq_true] at h ⊢
            rcases ih (i + 1) h with ⟨pre, a, hpre, hnot⟩
            refine ⟨IEv.awaitedEvent :: IEv.sentCommand (handle e) :: pre, a,
              by simp [hpre], ?_⟩
            simp [hnot]

/-- Claim C1: when the dispatch loop wakes with N commands queued, every
one of them is applied to shared state via `dispatch` (in order, as a
prefix of all dispatches of the drain) before `should_suspend` or
`should_quit` is inspected and before the loop blocks on the next
receive: the drain trace contains no flag check and no blocking wait,
and the whole lifecycle trace comes strictly after it. -/
theorem run_drains_all_before_flags {σ : Type} (cfg : Cfg σ) (fuel : Nat)
    (s : σ) (queue : List Action)
    (h : (drain cfg fuel s queue).status = DStatus.done) :
    (∃ t, dispatchedOf (drain cfg fuel s queue).evs = queue ++ t) ∧
    Ev.checkSuspend ∉ (drain cfg fuel s queue).evs ∧
    Ev.checkQuit ∉ (drain cfg fuel s queue).evs ∧
    Ev.blockWait ∉ (drain cfg fuel s queue).evs ∧
    (runIteration cfg fuel s queue).evs =
      (drain cfg fuel s queue).evs ++
        (lifecycle cfg (drain cfg fuel s queue).state).1 := by
  have hd := drain_done_all cfg fuel s queue h
  refine ⟨hd.1, ?_, ?_, ?_, ?_⟩
  · intro hm; have := hd.2 _ hm; simp [isDrainEv] at this
  · intro hm; have := hd.2 _ hm; simp [isDrainEv] at this
  · intro hm; have := hd.2 _ hm; simp [isDrainEv] at this
  · simp [runIteration, h]

/-- Witness for C1: a concrete three-command batch is fully drained and
its trace contains no flag inspection. -/
theorem run_drains_all_before_flags_w :
    Ev.checkSuspend ∉
      (drain cfg0 5 0
        [Action.Tick, Action.RenderTick, Action.AddToCounter 5]).evs :=
  (run_drains_all_before_flags cfg0 5 0
    [Action.Tick, Action.RenderTick, Action.AddToCounter 5]
    (by decide)).2.1

/-- Claim C2: after draining, `should_suspend` is checked first, so when
both flags are set the loop takes the suspend transition (its outcome is
`continued`, not `exited`); the quit transition is taken exactly when
`should_suspend` is false and `should_quit` is true. -/
theorem suspend_priority {σ : Type} (cfg : Cfg σ) (s : σ) :
    (cfg.suspendFlag s = true →
      lifecycle cfg s = (suspendEvs, Outcome.continued)) ∧
    (lifecycle cfg s = (quitEvs, Outcome.exited) ↔
      (cfg.suspendFlag s = false ∧ cfg.quitFlag s = true)) := by
  by_cases hs : cfg.suspendFlag s <;> by_cases hq : cfg.quitFlag s <;>
    simp [lifecycle, hs, hq, suspendEvs, quitEvs, idleEvs]

/-- Witness for C2: in a state with both flags set the suspend branch is
taken. -/
theorem suspend_priority_w :
    lifecycle cfgS 0 = (suspendEvs, Outcome.continued) :=
  (suspend_priority cfgS 0).1 rfl

/-- Counterexample to C3 as stated: with the signal channel closed (all
senders dropped) and no queued signal, the render task's loop never
terminates — the `None => {}` arm of the `match` does nothing and the
loop re-enters `recv` forever, so `tui.exit()` is never reached. -/
theorem render_close_no_exit_cex : ¬ tuiTerminates (fun _ => true) [] true := by
  rintro ⟨fuel, h⟩
  rw [tuiRun_nil_closed] at h
  exact absurd h (by decide)

/-- Claim C3 (amended): the render task's loop terminates when it
receives a Stop signal, exiting the loop and restoring the terminal; but
when the channel is merely closed, `recv` returns `None`, which the loop
ignores, and it keeps spinning without ever exiting or restoring. -/
theorem render_stop_exits_close_spins (drawOk : Nat → Bool)
    (post : List Message) (closed : Bool) (k fuel : Nat) :
    tuiRun drawOk (fuel + 1) k (Message.Stop :: post) closed =
      ⟨[TEv.restoredTerminal], TStatus.finished⟩ ∧
    (tuiRun drawOk fuel k [] true).status = TStatus.fuelOut := by
  constructor
  · rfl
  · rw [tuiRun_nil_closed]

/-- Counterexample to C4 as stated: when the first draw fails, the task
panics out of `draw(..).unwrap()` and finishes without the restore
(`tui.exit()`) ever being invoked. -/
theorem draw_panic_skips_restore_cex :
    (tuiRun (fun _ => false) 3 0 [Message.Render] false).status =
      TStatus.panicked ∧
    TEv.restoredTerminal ∉
      (tuiRun (fun _ => false) 3 0 [Message.Render] false).evs := by
  decide

/-- Claim C4 (amended): on the normal exit path the restore is the last
thing the render task does, but on the draw-failure path the task
panics and the restore never happens. -/
theorem render_restore_normal_not_on_panic (drawOk : Nat → Bool)
    (fuel k : Nat) (queue : List Message) (closed : Bool) :
    ((tuiRun drawOk fuel k queue closed).status = TStatus.finished →
      ∃ pre, (tuiRun drawOk fuel k queue closed).evs =
        pre ++ [TEv.restoredTerminal]) ∧
    ((tuiRun drawOk fuel k queue closed).status = TStatus.panicked →
      TEv.restoredTerminal ∉ (tuiRun drawOk fuel k queue closed).evs) :=
  tuiRun_restore_paths drawOk fuel k queue closed

/-- Witness for C4 (amended): a concrete Stop-terminated run ends with
the restore. -/
theorem render_restore_normal_not_on_panic_w :
    ∃ pre, (tuiRun (fun _ => true) 2 0 [Message.Stop] false).evs =
      pre ++ [TEv.restoredTerminal] :=
  (render_restore_normal_not_on_panic (fun _ => true) 2 0
    [Message.Stop] false).1 rfl

/-- Claim C5: a render signal is sent exactly for `RenderTick` commands;
the only operation that can make command handling fail is the
command-channel re-enqueue (`cmdSendOk`), never the render-signal send,
and closing the render channel does not change whether handling
succeeds. -/
theorem render_signal_iff_rendertick {σ : Type} (cfg : Cfg σ) (s : σ)
    (a : Action) :
    ((∃ b, Ev.sendRender b ∈ actionEvs cfg a) ↔ a = Action.RenderTick) ∧
    (processAction cfg s a = none → cfg.cmdSendOk = false) ∧
    (Option.isSome (processAction
        ⟨cfg.dispatch, cfg.suspendFlag, cfg.quitFlag, false, cfg.cmdSendOk⟩
        s a) =
      Option.isSome (processAction cfg s a)) := by
  refine ⟨⟨?_, ?_⟩, processAction_none cfg s a, ?_⟩
  · rintro ⟨b, hb⟩
    by_cases h1 : a = Action.RenderTick
    · exact h1
    · by_cases h2 : a = Action.Tick <;> simp [actionEvs, h1, h2] at hb
  · intro h
    exact ⟨cfg.tuiSendOk, by simp [actionEvs, h]⟩
  · rcases hd : cfg.dispatch s a with ⟨s2, o⟩
    cases o with
    | none => simp [processAction, hd]
    | some f =>
        by_cases hc : cfg.cmdSendOk <;> simp [processAction, hd, hc]

/-- Witness for C5: `RenderTick` produces a render-signal send. -/
theorem render_signal_iff_rendertick_w :
    ∃ b, Ev.sendRender b ∈ actionEvs cfg0 Action.RenderTick :=
  (render_signal_iff_rendertick cfg0 0 Action.RenderTick).1.mpr rfl

/-- Counterexample to C6 as stated: `RenderTick` is a command other than
`Tick`, yet no diagnostic trace is emitted for it — the render-forward
branch of the `if`/`else if` chain shadows the trace branch. -/
theorem rendertick_not_traced_cex :
    Ev.traceDbg Action.RenderTick ∉ actionEvs cfg0 Action.RenderTick ∧
    Action.RenderTick ≠ Action.Tick := by
  decide

/-- Claim C6 (amended): a diagnostic trace is emitted exactly for the
commands that are neither `Tick` nor `RenderTick`. -/
theorem traced_iff_not_tick_rendertick {σ : Type} (cfg : Cfg σ)
    (a : Action) :
    Ev.traceDbg a ∈ actionEvs cfg a ↔
      (a ≠ Action.Tick ∧ a ≠ Action.RenderTick) := by
  by_cases h1 : a = Action.RenderTick <;> by_cases h2 : a = Action.Tick <;>
    simp [actionEvs, h1, h2]

/-- Witness for C6 (amended): `Quit` is traced. -/
theorem traced_iff_not_tick_rendertick_w :
    Ev.traceDbg Action.Quit ∈ actionEvs cfg0 Action.Quit :=
  (traced_iff_not_tick_rendertick cfg0 Action.Quit).mpr (by decide)

/-- Claim C7: a follow-up command returned by `dispatch` is re-enqueued
onto the same command channel when the send succeeds, and a failing
re-enqueue is fatal: command handling aborts, the drain ends in
`sendErr`, and the loop iteration's outcome is an error propagated out
of `run` instead of being swallowed. -/
theorem followup_reenqueue_fatal {σ : Type} (cfg : Cfg σ) (s : σ)
    (a f : Action) (rest : List Action) (fuel : Nat)
    (hf : (cfg.dispatch s a).2 = some f) :
    (cfg.cmdSendOk = true →
      processAction cfg s a =
        some ((cfg.dispatch s a).1, [f], actionEvs cfg a)) ∧
    (cfg.cmdSendOk = false →
      processAction cfg s a = none ∧
      (drain cfg (fuel + 1) s (a :: rest)).status = DStatus.sendErr ∧
      (runIteration cfg (fuel + 1) s (a :: rest)).outcome =
        Outcome.errored) := by
  rcases hd : cfg.dispatch s a with ⟨s1, o⟩
  have ho : o = some f := by rw [hd] at hf; exact hf
  subst ho
  constructor
  · intro hc
    simp [processAction, hd, hc]
  · intro hc
    have hpn : processAction cfg s a = none := by
      simp [processAction, hd, hc]
    exact ⟨hpn, by simp [drain, hpn], by simp [runIteration, drain, hpn]⟩

/-- Witness for C7: with the command channel unable to accept sends, a
dispatch that produces a follow-up makes the iteration error out. -/
theorem followup_reenqueue_fatal_w :
    (runIteration cfgF 3 0 [Action.Tick]).outcome = Outcome.errored :=
  ((followup_reenqueue_fatal cfgF 0 Action.Tick Action.Update [] 2
    rfl).2 rfl).2.2

/-- Claim C8: in both the suspend and the quit teardown, Stop is sent to
the render task, then the stop signal to the input task, then the render
task is awaited, then the input task, and all of it before the next
stage (OS suspend, respectively loop exit); the dispatch loop sends no
render signal during any lifecycle phase, and the render task, consuming
its channel in FIFO order, draws nothing at or after the Stop signal. -/
theorem teardown_order_thm {σ : Type} (cfg : Cfg σ) (s : σ)
    (drawOk : Nat → Bool) :
    (cfg.suspendFlag s = true →
      teardownOrdered (lifecycle cfg s).1 Ev.osSuspend) ∧
    (cfg.suspendFlag s = false → cfg.quitFlag s = true →
      teardownOrdered (lifecycle cfg s).1 Ev.exitLoop) ∧
    (∀ b, Ev.sendRender b ∉ (lifecycle cfg s).1) ∧
    (∀ (post : List Message) (closed : Bool) (k fuel : Nat),
      TEv.drewFrame ∉
        (tuiRun drawOk (fuel + 1) k (Message.Stop :: post) closed).evs) := by
  refine ⟨?_, ?_, ?_, ?_⟩
  · intro hs
    have hl : lifecycle cfg s = (suspendEvs, Outcome.continued) := by
      simp [lifecycle, hs]
    rw [hl]
    decide
  · intro hs hq
    have hl : lifecycle cfg s = (quitEvs, Outcome.exited) := by
      simp [lifecycle, hs, hq]
    rw [hl]
    decide
  · intro b
    by_cases hs : cfg.suspendFlag s <;> by_cases hq : cfg.quitFlag s <;>
      simp [lifecycle, hs, hq, suspendEvs, quitEvs, idleEvs]
  · intro post closed k fuel
    have hr : tuiRun drawOk (fuel + 1) k (Message.Stop :: post) closed =
        ⟨[TEv.restoredTerminal], TStatus.finished⟩ := rfl
    rw [hr]
    decide

/-- Witness for C8: the suspend-branch trace of a concrete state with
the flag set satisfies the teardown ordering. -/
theorem teardown_order_thm_w :
    teardownOrdered (lifecycle cfgS 0).1 Ev.osSuspend :=
  (teardown_order_thm cfgS 0 (fun _ => true)).1 rfl

/-- Claim C9: every suspend transition enqueues the Resume command
exactly once, and only after both fresh tasks have been spawned (which
themselves come after the OS suspend returned); the loop then
continues. -/
theorem resume_once_after_respawn {σ : Type} (cfg : Cfg σ) (s : σ)
    (h : cfg.suspendFlag s = true) :
    (lifecycle cfg s).1.count Ev.sendResume = 1 ∧
    (lifecycle cfg s).1.indexOf Ev.spawnRenderTask <
      (lifecycle cfg s).1.indexOf Ev.sendResume ∧
    (lifecycle cfg s).1.indexOf Ev.spawnInputTask <
      (lifecycle cfg s).1.indexOf Ev.sendResume ∧
    (lifecycle cfg s).2 = Outcome.continued := by
  have hl : lifecycle cfg s = (suspendEvs, Outcome.continued) := by
    simp [lifecycle, h]
  rw [hl]
  decide

/-- Witness for C9: a concrete suspended state enqueues Resume exactly
once. -/
theorem resume_once_after_respawn_w :
    (lifecycle cfgS 0).1.count Ev.sendResume = 1 :=
  (resume_once_after_respawn cfgS 0 rfl).1

/-- Claim C10: the input task polls its stop flag only after awaiting an
event, translating it, and sending the resulting command; so whenever it
exits, its trace ends with a full iteration — one awaited event, one
sent command, and only then the single wind-down of the event source —
and it never exits without having just sent a command. -/
theorem input_stop_checked_after_send {E : Type} (handle : E → Action)
    (sendOk : Bool) (stopAt : Option Nat) (events : List E) (i : Nat)
    (h : (eventRun handle sendOk stopAt events i).2 = IStatus.exited) :
    ∃ pre a, (eventRun handle sendOk stopAt events i).1 =
        pre ++ [IEv.awaitedEvent, IEv.sentCommand a, IEv.sourceStopped] ∧
      IEv.sourceStopped ∉ pre :=
  eventRun_exit_shape handle sendOk stopAt events i h

/-- Witness for C10: a concrete run that stops after its first event
exits right after sending that event's command. -/
theorem input_stop_checked_after_send_w :
    ∃ pre a, (eventRun (fun _ : Nat => Action.Tick) true (some 0) [0] 0).1 =
        pre ++ [IEv.awaitedEvent, IEv.sentCommand a, IEv.sourceStopped] ∧
      IEv.sourceStopped ∉ pre :=
  input_stop_checked_after_send (fun _ : Nat => Action.Tick) true (some 0)
    [0] 0 rfl

end TuiApp
